import Mathlib

/-!
Verification development for the test-time-adaptation engine (`Ours` in
`methods/ours.py`, together with `classification/methods/rmt.py`).

The embedding works over exact rationals: a tensor of logits for a batch is a
`List (List ℚ)` (one inner list per sample), parameter vectors are `List ℚ`.
External collaborators that are not part of this repository's core source
(torch's pointwise exponential used by softmax, the loss kernels from
`utils/losses.py`, the augmentation transform, the backbone half produced by
`split_up_model`, and the opaque optimizer-step semantics) are passed in as
explicit function parameters, so every theorem below holds for every possible
behaviour of those collaborators.
-/

/-- Pointwise sum of two equally long vectors (`a + b` on tensors). -/
def vadd (a b : List ℚ) : List ℚ := List.zipWith (· + ·) a b

/-- Scalar multiple of a vector (`c * v` on tensors). -/
def vscale (c : ℚ) (v : List ℚ) : List ℚ := v.map (fun z => c * z)

/-- Elementwise sum of two batches of logits (`A + B` on `[batch, classes]`). -/
def addBatch (A B : List (List ℚ)) : List (List ℚ) := List.zipWith vadd A B

/-- Mean of a vector (`t.mean(0)` for a 1-d tensor). -/
def meanQ (v : List ℚ) : ℚ := v.sum / (v.length : ℚ)

/-- Softmax of one row, parameterized by the pointwise exponential `e`
(torch's `exp` is external to this repository). -/
def softmax_row (e : ℚ → ℚ) (v : List ℚ) : List ℚ :=
  v.map (fun z => e z / (v.map e).sum)

/-- Row-wise softmax of a batch (`F.softmax(·, dim=1)`). -/
def softmax_batch (e : ℚ → ℚ) (A : List (List ℚ)) : List (List ℚ) :=
  A.map (softmax_row e)

/-- Tensor fancy-indexing `xs[ids]`: select the rows named by `ids`. -/
def selectIdx {β : Type} (xs : List β) (ids : List ℕ) : List β :=
  ids.filterMap (fun i => xs.get? i)

/-- Row-wise argmax (`torch.argmax(outputs, dim=1)` on one row). -/
def argmax_row (v : List ℚ) : ℕ :=
  (List.range v.length).foldl
    (fun best i => if v.getD best 0 < v.getD i 0 then i else best) 0

/-- One component of the EMA merge of `rmt.py:update_ema_variables` (line 20):
`alpha_teacher * ema_param + (1 - alpha_teacher) * param`. -/
def emaMergeParam (alpha_teacher e p : ℚ) : ℚ :=
  alpha_teacher * e + (1 - alpha_teacher) * p

/-- `update_ema_variables(ema_model, model, alpha_teacher)` from
`classification/methods/rmt.py` lines 18-21, on the zipped parameter lists.
The spec states that `ema_update_model` (imported by `methods/ours.py` from
`utils/misc.py`, whose source is not in the repository snapshot) applies the
same per-parameter merge, so the `Ours` pipeline below reuses this function. -/
def update_ema_variables (alpha_teacher : ℚ) (ema model : List ℚ) : List ℚ :=
  List.zipWith (emaMergeParam alpha_teacher) ema model

/-- One stored prototype-queue entry: a feature vector together with the
entropy of the teacher prediction that produced it (lower entropy = higher
confidence). -/
structure PQEntry where
  feature : List ℚ
  entropy : ℚ
deriving DecidableEq

/-- Maximum entropy over a list of entries, folded from a base value. -/
def maxEntropyFrom (b : ℚ) (l : List PQEntry) : ℚ :=
  l.foldl (fun acc a => max acc a.entropy) b

/-- Modelled from the spec: the eviction primitive shared by `update_pqs` and
`pop_min_from_pqs` (both from `utils/misc.py`, which is not in the repository
snapshot). Per spec sections 3 and 4.1, eviction removes the entry with the
worst confidence, i.e. the numerically highest entropy. The first component is
the evicted entry (`none` on an empty queue), the second is the remaining
queue. -/
def evictSplit (q : List PQEntry) : Option PQEntry × List PQEntry :=
  match q with
  | [] => (none, [])
  | e :: rest =>
      let w := maxEntropyFrom e.entropy rest
      ((e :: rest).find? (fun a => decide (w ≤ a.entropy)),
       (e :: rest).eraseP (fun a => decide (w ≤ a.entropy)))

/-- The per-class bounded priority-queue store: `max_size` is the capacity `K`
fixed at construction and `queues` maps each class id to its queue. -/
structure PQStore where
  max_size : ℕ
  queues : List (List PQEntry)
deriving DecidableEq

/-- Modelled from the spec: `init_pqs(num_classes, max_size)` from
`utils/misc.py` (not in the repository snapshot) — one empty queue per class,
capacity fixed at construction. Called as `init_pqs(self.num_classes,
max_size=10)` in `Ours.__init__` (ours.py line 125). -/
def init_pqs (num_classes : ℕ) (max_size : ℕ) : PQStore :=
  ⟨max_size, List.replicate num_classes []⟩

/-- Modelled from the spec: insertion of one `(feature, confidence)` pair into
the queue of its label; when the queue would exceed the capacity, the
worst-confidence (highest-entropy) entry is evicted (spec section 4.1). -/
def pushEntry (pqs : PQStore) (f : List ℚ) (ent : ℚ) (lab : ℕ) : PQStore :=
  let q := pqs.queues.getD lab []
  let q1 := q ++ [⟨f, ent⟩]
  let q2 := if pqs.max_size < q1.length then (evictSplit q1).2 else q1
  { pqs with queues := pqs.queues.set lab q2 }

/-- Modelled from the spec: `update_pqs(pqs, features, entropies, labels)` from
`utils/misc.py` (not in the repository snapshot) — push every sample of the
batch into the queue of its label, with capacity-bounded eviction. -/
def update_pqs (pqs : PQStore) (features : List (List ℚ)) (entropies : List ℚ)
    (labels : List ℕ) : PQStore :=
  (features.zip (entropies.zip labels)).foldl
    (fun acc t => pushEntry acc t.1 t.2.1 t.2.2) pqs

/-- Modelled from the spec: `pop_min_from_pqs(pqs, num_classes)` from
`utils/misc.py` (not in the repository snapshot) — the periodic eviction round
that pops the current minimum-confidence (maximum-entropy) entry from every
class queue (spec section 4.1). -/
def pop_min_from_pqs (pqs : PQStore) (num_classes : ℕ) : PQStore :=
  { pqs with queues := pqs.queues.map (fun q => (evictSplit q).2) }

/-- Modelled from the spec: `compute_prototypes(pqs, num_classes, feature_dim,
device)` from `utils/misc.py` (not in the repository snapshot) — mean-pool the
features of each class queue; a class with an empty queue yields a zero-filled
row (spec sections 4.1 and 9). -/
def compute_prototypes (pqs : PQStore) (num_classes feature_dim : ℕ) :
    List (List ℚ) :=
  (List.range num_classes).map (fun cls =>
    let q := pqs.queues.getD cls []
    if q.length = 0 then List.replicate feature_dim (0 : ℚ)
    else vscale (1 / (q.length : ℚ))
      (q.foldl (fun acc a => vadd acc a.feature)
        (List.replicate feature_dim (0 : ℚ))))

/-- One call against the prototype store: a batch insertion (`update_pqs`) or a
periodic eviction round (`pop_min_from_pqs`). -/
inductive PQOp where
  | update (features : List (List ℚ)) (entropies : List ℚ) (labels : List ℕ)
  | evictRound (num_classes : ℕ)

/-- Interpretation of one prototype-store call. -/
def applyPQOp (pqs : PQStore) : PQOp → PQStore
  | PQOp.update f e l => update_pqs pqs f e l
  | PQOp.evictRound n => pop_min_from_pqs pqs n

/-- A sequence of prototype-store calls, applied in order. -/
def runPQOps (ops : List PQOp) (pqs : PQStore) : PQStore :=
  ops.foldl applyPQOp pqs

/-- Modelled from the spec: `confidence_condition(entropy_t1, entropy_t2,
entropy_threshold)` from `utils/misc.py` (not in the repository snapshot).
Per spec section 4.3 it returns four index sets partitioning the batch by the
combinations of T1 confident (`entropy < threshold`) and T2 confident, in the
order (both confident, only-T2-confident, only-T1-confident, neither); the
engine selects the second set (`filter_ids_2`, ours.py line 216). -/
def confidence_condition (entropy_t1 entropy_t2 : List ℚ)
    (entropy_threshold : ℚ) : List ℕ × List ℕ × List ℕ × List ℕ :=
  let n := entropy_t1.length
  let conf1 := fun i => decide (entropy_t1.getD i 0 < entropy_threshold)
  let conf2 := fun i => decide (entropy_t2.getD i 0 < entropy_threshold)
  ((List.range n).filter (fun i => conf1 i && conf2 i),
   (List.range n).filter (fun i => !conf1 i && conf2 i),
   (List.range n).filter (fun i => conf1 i && !conf2 i),
   (List.range n).filter (fun i => !conf1 i && !conf2 i))

/-- An opaque differentiable model: a fixed architecture `net` applied to the
current parameter vector, mapping a batch `x : α` to a `[batch, classes]`
logit matrix. Mirrors the spec's `ModelHandle` interface. -/
structure ModelHandle (α : Type) where
  net : List ℚ → α → List (List ℚ)
  params : List ℚ

/-- Forward pass of a model handle. -/
def ModelHandle.forward {α : Type} (M : ModelHandle α) (x : α) :
    List (List ℚ) :=
  M.net M.params x

/-- External collaborators of `Ours` that live outside this repository's core
source: the augmentation transform (`get_tta_transforms`), the pointwise
exponential used by torch's softmax, the per-row symmetric-cross-entropy and
entropy kernels (`utils/losses.py`), the backbone half of `split_up_model`
(a function of the owning model's parameters), the real-valued T2 loss kernels
of ours.py (whose numeric values use square roots and exponentials over ℝ and
are irrelevant to every claim), and the opaque optimizer-step semantics
(spec: `apply_gradient`): each optimizer step produces the new parameter
vector of the sole model it owns, as an arbitrary function of the pre-step
engine state and input. -/
structure Externals (α : Type) where
  ttaTransform : α → α
  ex : ℚ → ℚ
  sceRow : List ℚ → List ℚ → ℚ
  entRow : List ℚ → ℚ
  backbone : List ℚ → α → List (List ℚ)
  cntrsProtoF : List (List ℚ) → List (List ℚ) → List ℕ → ℚ → ℚ
  mseF : List (List ℚ) → List (List ℚ) → ℚ
  kldF : List (List ℚ) → List (List ℚ) → List ℕ → ℚ
  cntrsF : List (List ℚ) → List (List ℚ) → List (List ℚ) → ℚ

/-- Mutable state of an `Ours` engine instance (ours.py `__init__`):
the wrapped base model `self.model`, the student `self.model_s`, the EMA
teacher `self.model_t1`, the second teacher `self.model_t2`, the EMA momentum,
the (re-assignable) field `self.lambda_ce_trg`, the step counter `self.c`,
the class count and the prototype priority queues. -/
structure OursState (α : Type) where
  model : ModelHandle α
  model_s : ModelHandle α
  model_t1 : ModelHandle α
  model_t2 : ModelHandle α
  m_teacher_momentum : ℚ
  lambda_ce_trg : ℚ
  c : ℕ
  num_classes : ℕ
  priority_queues : PQStore

/-- Per-sample symmetric cross-entropy of two logit batches
(`self.symmetric_cross_entropy(a, b)` returns one value per sample;
the kernel itself is external, from `utils/losses.py`). -/
def sceBatch {α : Type} (C : Externals α) (A B : List (List ℚ)) : List ℚ :=
  List.zipWith C.sceRow A B

/-- `Ours.prototype_updates` (ours.py lines 146-183): detach is a no-op in
this pure embedding; push the batch into the queues, pop the minimum from
every queue when the step counter is divisible by 5, then compute the
prototypes. Returns the updated store and the prototype matrix. -/
def prototype_updates (c : ℕ) (pqs : PQStore) (num_classes : ℕ)
    (features : List (List ℚ)) (entropies : List ℚ) (labels : List ℕ) :
    PQStore × List (List ℚ) :=
  let pqs1 := update_pqs pqs features entropies labels
  let pqs2 := if c % 5 = 0 then pop_min_from_pqs pqs1 num_classes else pqs1
  (pqs2, compute_prototypes pqs2 num_classes ((features.headD []).length))

/-- `Ours.loss_calculation` (ours.py lines 185-248). Input `x` is the clean
batch (`x = x[0]` already unwrapped). Returns `((outputs, loss_stu, loss_t2),
new state)`: `outputs = softmax(outputs_t1 + outputs_t2, dim=1)` (line 196),
`loss_stu` the student self-training loss scaled by the just-overwritten
`lambda_ce_trg = 1` (lines 199-205), `loss_t2` the weighted T2 loss
(line 246); the state update records the `self.lambda_ce_trg = 1` assignment
and the priority-queue mutation done by `prototype_updates`. -/
def loss_calculation {α : Type} (C : Externals α) (st : OursState α) (x : α) :
    (List (List ℚ) × ℚ × ℚ) × OursState α :=
  let x_aug := C.ttaTransform x
  let outputs_s := st.model_s.forward x
  let outputs_t1 := st.model_t1.forward x
  let outputs_t2 := st.model_t2.forward x
  let outputs_stu_aug := st.model_s.forward x_aug
  let outputs := softmax_batch C.ex (addBatch outputs_t1 outputs_t2)
  let lambda_ce_trg : ℚ := 1
  let loss_self_training :=
    vadd (vadd (vscale (1/2) (sceBatch C outputs_s outputs_t1))
               (vscale (1/2) (sceBatch C outputs_stu_aug outputs_t1)))
         (vscale (1/2) (sceBatch C outputs_s outputs_t2))
  let loss_stu := lambda_ce_trg * meanQ loss_self_training
  let entropy_t1 := outputs_t1.map C.entRow
  let entropy_ema_t2 := outputs_t2.map C.entRow
  let filter_ids := confidence_condition entropy_t1 entropy_ema_t2 (2/5)
  let selected_filter_ids := filter_ids.2.1
  let features_t1 := C.backbone st.model_t1.params x
  let selected_features_t1 := selectIdx features_t1 selected_filter_ids
  let selected_entropy_t1 := selectIdx entropy_t1 selected_filter_ids
  let labels_t1 := outputs_t1.map argmax_row
  let selected_labels_t1 := selectIdx labels_t1 selected_filter_ids
  let pu := prototype_updates st.c st.priority_queues st.num_classes
    selected_features_t1 selected_entropy_t1 selected_labels_t1
  let prototypes := pu.2
  let features_t2 := C.backbone st.model_t2.params x
  let features_aug_t2 := C.backbone st.model_t2.params x_aug
  let cntrs_t2_proto := C.cntrsProtoF features_t2 prototypes labels_t1 (1/2)
  let mse_t2 := C.mseF features_t2 (selectIdx prototypes labels_t1)
  let kld_t2 := C.kldF features_t2 prototypes labels_t1
  let cntrs_t2 := C.cntrsF features_t2 prototypes features_aug_t2
  let loss_t2 := cntrs_t2_proto + 10 * mse_t2 + 100 * kld_t2 + cntrs_t2
  ((outputs, loss_stu, loss_t2),
   { st with lambda_ce_trg := lambda_ce_trg, priority_queues := pu.1 })

/-- `Ours.forward_and_adapt` (ours.py lines 250-283), non-mixed-precision
branch (lines 259-282): compute the losses, step the student optimizer
(`optimizer_bn`, which owns only `model_s`'s parameters), step the T2 backbone
optimizer (`optimizer_backbone_t2`, which owns only `model_t2`'s trainable
parameters), EMA-merge the student into T1 (`ema_update_model`, whose merge is
`update_ema_variables`'s formula per the spec), increment `self.c`, and return
`outputs`. The two optimizer steps are opaque externals. -/
def forward_and_adapt {α : Type} (C : Externals α)
    (stepOptimizerBn stepOptimizerBackboneT2 : OursState α → α → List ℚ)
    (st : OursState α) (x : α) : List (List ℚ) × OursState α :=
  let r := loss_calculation C st x
  let outputs := r.1.1
  let st1 := r.2
  let st2 := { st1 with model_s :=
    { st1.model_s with params := stepOptimizerBn st1 x } }
  let st3 := { st2 with model_t2 :=
    { st2.model_t2 with params := stepOptimizerBackboneT2 st2 x } }
  let newT1 :=
    update_ema_variables st3.m_teacher_momentum st3.model_t1.params
      st3.model_s.params
  let st4 := { st3 with model_t1 := { st3.model_t1 with params := newT1 } }
  (outputs, { st4 with c := st4.c + 1 })

/-- Iterated adaptation: fold `forward_and_adapt` over a stream of batches. -/
def adaptRun {α : Type} (C : Externals α)
    (stepBn stepT2 : OursState α → α → List ℚ) :
    OursState α → List α → OursState α
  | st, [] => st
  | st, x :: xs =>
      adaptRun C stepBn stepT2 (forward_and_adapt C stepBn stepT2 st x).2 xs

/-- The student's parameter history along a run: after each adaptation step,
the post-step value of `model_s.params`. -/
def studentHistory {α : Type} (C : Externals α)
    (stepBn stepT2 : OursState α → α → List ℚ) :
    OursState α → List α → List (List ℚ)
  | _, [] => []
  | st, x :: xs =>
      let st' := (forward_and_adapt C stepBn stepT2 st x).2
      st'.model_s.params :: studentHistory C stepBn stepT2 st' xs

/-- `Ours.forward_sliding_window` (ours.py lines 285-295): under
`torch.no_grad`, forward the buffered batch through `self.model` and
`self.model_t1` and return the summed logits; no field of the engine state is
assigned, which the embedding records by returning the input state unchanged. -/
def forward_sliding_window {α : Type} (st : OursState α) (x : α) :
    List (List ℚ) × OursState α :=
  (addBatch (st.model.forward x) (st.model_t1.forward x), st)

/-- The observable side-effect events of one `forward_and_adapt` call, used to
state ordering claims about backward passes and optimizer steps. -/
inductive AdaptEvent where
  | backward_loss_stu
  | step_optimizer_bn
  | zero_grad_optimizer_bn
  | backward_loss_t2
  | step_optimizer_backbone_t2
  | zero_grad_optimizer_backbone_t2
  | step_optimizer_classifier_t2
  | zero_grad_optimizer_classifier_t2
  | ema_update_t1
  | increment_counter
deriving DecidableEq

/-- The statement-by-statement effect sequence of the non-mixed-precision
branch of `Ours.forward_and_adapt` (ours.py lines 259-282): `loss.backward`
(263), `optimizer_bn.step()` (265), `optimizer_bn.zero_grad()` (266),
`loss_t2.backward()` (269), `optimizer_backbone_t2.step()` (271),
`optimizer_backbone_t2.zero_grad()` (272), the EMA update of T1 (274-280) and
the counter increment (282). No other optimizer is stepped or zeroed there;
in particular `optimizer_classifier_t2` (constructed at lines 105-107) never
appears. -/
def forward_and_adapt_trace : List AdaptEvent :=
  [AdaptEvent.backward_loss_stu,
   AdaptEvent.step_optimizer_bn,
   AdaptEvent.zero_grad_optimizer_bn,
   AdaptEvent.backward_loss_t2,
   AdaptEvent.step_optimizer_backbone_t2,
   AdaptEvent.zero_grad_optimizer_backbone_t2,
   AdaptEvent.ema_update_t1,
   AdaptEvent.increment_counter]

/-- Identity mask `torch.eye(batch_size)` as a rational matrix. -/
def eyeQ (n : ℕ) : List (List ℚ) :=
  (List.range n).map (fun i => (List.range n).map
    (fun j => if i = j then (1 : ℚ) else 0))

/-- Label-equality mask `torch.eq(labels, labels.T).float()`. -/
def eqMask (l : List ℤ) : List (List ℚ) :=
  l.map (fun a => l.map (fun b => if a = b then (1 : ℚ) else 0))

/-- The contrast-mode branch of `Ours.contrastive_loss` (ours.py lines
439-446): mode `one` uses a single anchor view, mode `all` uses all three
concatenated views (`contrast_count = features.shape[1] = 3` after the
triplet concatenation at lines 413-420), any other mode raises. The numeric
loss body (lines 448-482) is abstracted as the opaque `kernel` of the
validated mask and anchor count, since it evaluates real exponentials. -/
def contrastive_mode_branch (kernel : List (List ℚ) → ℕ → ℚ)
    (mask : List (List ℚ)) (contrast_mode : String) : Except String ℚ :=
  if contrast_mode = "one" then Except.ok (kernel mask 1)
  else if contrast_mode = "all" then Except.ok (kernel mask 3)
  else Except.error ("Unknown mode: " ++ contrast_mode)

/-- Argument validation of `Ours.contrastive_loss` (ours.py lines 422-446; the
same checks appear in `RMT.contrastive_loss`, rmt.py lines 164-189):
`batch_size` is the first dimension of the feature tensor; supplying both
`labels` and `mask` raises, a supplied `labels` whose length differs from
`batch_size` raises, otherwise the mask is the identity (neither supplied),
the label-equality mask (labels supplied) or the given mask; finally the
contrast mode must be `one` or `all`. The method assigns no engine state
anywhere, so it is a pure function and every raise propagates to the caller
with nothing modified. -/
def contrastive_loss (kernel : List (List ℚ) → ℕ → ℚ)
    (features : List (List ℚ)) (labels : Option (List ℤ))
    (maskArg : Option (List (List ℚ))) (contrast_mode : String) :
    Except String ℚ :=
  let batch_size := features.length
  match labels, maskArg with
  | some _, some _ => Except.error ("Cannot define both labels and mask")
  | none, none => contrastive_mode_branch kernel (eyeQ batch_size) contrast_mode
  | some l, none =>
      if l.length ≠ batch_size then
        Except.error ("Num of labels does not match num of features")
      else contrastive_mode_branch kernel (eqMask l) contrast_mode
  | none, some m => contrastive_mode_branch kernel m contrast_mode

/-- A one-parameter architecture for concrete test states: the logits of the
single-sample batch are the parameter vector itself. -/
def cexNet : List ℚ → Unit → List (List ℚ) := fun p _ => [p]

/-- A concrete engine state in which the base model `self.model` (parameter 0)
and the gradient-adapted student `self.model_s` (parameter 1) have diverged,
as happens after any adaptation step in which `optimizer_bn` moves the
student's parameters. -/
def cexState : OursState Unit where
  model := ⟨cexNet, [0]⟩
  model_s := ⟨cexNet, [1]⟩
  model_t1 := ⟨cexNet, [0]⟩
  model_t2 := ⟨cexNet, [0]⟩
  m_teacher_momentum := 999/1000
  lambda_ce_trg := 1
  c := 0
  num_classes := 1
  priority_queues := init_pqs 1 10

/-- T1 entropies of the spec's end-to-end confidence-filter scenario. -/
def scenario_entropy_t1 : List ℚ :=
  [1/10, 1/10, 1/10, 1/10, 9/10, 9/10, 9/10, 9/10]

/-- T2 entropies of the spec's end-to-end confidence-filter scenario. -/
def scenario_entropy_t2 : List ℚ := List.replicate 8 (1/5)

/-- A concrete two-entry queue used to instantiate eviction theorems. -/
def sampleQueue : List PQEntry := [⟨[0], 1/2⟩, ⟨[1], 3/4⟩]

/-- A concrete three-entry queue: the contents of class 0 after pushing three
samples of `sampleOps` into a fresh store. -/
def sampleQueue3 : List PQEntry := [⟨[1], 1/2⟩, ⟨[2], 1/3⟩, ⟨[3], 1/4⟩]

/-- A concrete one-call operation sequence against the prototype store. -/
def sampleOps : List PQOp :=
  [PQOp.update [[1], [2], [3]] [1/2, 1/3, 1/4] [0, 0, 0]]

/-! ## Helper lemmas -/

section RatReduction

attribute [local semireducible] Rat.add Rat.mul Rat.sub Rat.inv Rat.ofScientific

theorem getD_zipWith (f : ℚ → ℚ → ℚ) :
    ∀ (a b : List ℚ) (i : ℕ), i < a.length → i < b.length →
      (List.zipWith f a b).getD i 0 = f (a.getD i 0) (b.getD i 0) := by
  intro a
  induction a with
  | nil => intro b i h _; simp at h
  | cons x a ih =>
      intro b i h1 h2
      cases b with
      | nil => simp at h2
      | cons y b =>
          cases i with
          | zero => simp [List.getD]
          | succ i =>
              simp only [List.zipWith_cons_cons, List.getD_cons_succ]
              exact ih b i (by simpa using h1) (by simpa using h2)

theorem emaMergeParam_between (m e p : ℚ) (h0 : 0 ≤ m) (h1 : m ≤ 1) :
    min e p ≤ emaMergeParam m e p ∧ emaMergeParam m e p ≤ max e p := by
  unfold emaMergeParam
  rcases le_total e p with h | h
  · rw [min_eq_left h, max_eq_right h]
    constructor
    · nlinarith [mul_nonneg (sub_nonneg.mpr h1) (sub_nonneg.mpr h)]
    · nlinarith [mul_nonneg h0 (sub_nonneg.mpr h)]
  · rw [min_eq_right h, max_eq_left h]
    constructor
    · nlinarith [mul_nonneg h0 (sub_nonneg.mpr h)]
    · nlinarith [mul_nonneg (sub_nonneg.mpr h1) (sub_nonneg.mpr h)]

theorem update_ema_one : ∀ (a b : List ℚ), a.length = b.length →
    update_ema_variables 1 a b = a := by
  intro a
  induction a with
  | nil => intro b _; simp [update_ema_variables]
  | cons x a ih =>
      intro b h
      cases b with
      | nil => simp at h
      | cons y b =>
          have hx : emaMergeParam 1 x y = x := by unfold emaMergeParam; ring
          simp only [update_ema_variables, List.zipWith_cons_cons] at *
          rw [hx, ih b (by simpa using h)]

theorem update_ema_zero : ∀ (a b : List ℚ), a.length = b.length →
    update_ema_variables 0 a b = b := by
  intro a
  induction a with
  | nil =>
      intro b h
      cases b with
      | nil => simp [update_ema_variables]
      | cons y b => simp at h
  | cons x a ih =>
      intro b h
      cases b with
      | nil => simp at h
      | cons y b =>
          have hx : emaMergeParam 0 x y = y := by unfold emaMergeParam; ring
          simp only [update_ema_variables, List.zipWith_cons_cons] at *
          rw [hx, ih b (by simpa using h)]

/-! ## Claim theorems -/

/-- C1: for every pair of corresponding parameter tensors and every momentum
`m ∈ [0, 1]`, the EMA merge replaces each EMA parameter by
`m * ema_param + (1 - m) * source_param`; hence every merged component lies on
the segment between the prior EMA value and the source value, `m = 1` leaves
the EMA parameters unchanged, and `m = 0` replaces them exactly with the
source parameters. -/
theorem update_ema_variables_segment_endpoints (m : ℚ) (ema src : List ℚ)
    (h0 : 0 ≤ m) (h1 : m ≤ 1) (hlen : ema.length = src.length) :
    (∀ i, i < src.length →
      min (ema.getD i 0) (src.getD i 0) ≤
        (update_ema_variables m ema src).getD i 0 ∧
      (update_ema_variables m ema src).getD i 0 ≤
        max (ema.getD i 0) (src.getD i 0)) ∧
    (m = 1 → update_ema_variables m ema src = ema) ∧
    (m = 0 → update_ema_variables m ema src = src) := by
  refine ⟨?_, ?_, ?_⟩
  · intro i hi
    have hi' : i < ema.length := by omega
    rw [update_ema_variables, getD_zipWith _ _ _ _ hi' hi]
    exact emaMergeParam_between m _ _ h0 h1
  · intro hm; subst hm; exact update_ema_one ema src hlen
  · intro hm; subst hm; exact update_ema_zero ema src hlen

theorem update_ema_variables_segment_endpoints_witness :
    (min ((([0, 4] : List ℚ)).getD 0 0) ((([2, 0] : List ℚ)).getD 0 0) ≤
      (update_ema_variables (1/2) [0, 4] [2, 0]).getD 0 0) ∧
    update_ema_variables 1 [0, 4] [2, 0] = [0, 4] ∧
    update_ema_variables 0 [0, 4] [2, 0] = [2, 0] :=
  ⟨((update_ema_variables_segment_endpoints (1/2) [0, 4] [2, 0]
      (by norm_num) (by norm_num) rfl).1 0 (by norm_num)).1,
   (update_ema_variables_segment_endpoints 1 [0, 4] [2, 0]
      (by norm_num) (by norm_num) rfl).2.1 rfl,
   (update_ema_variables_segment_endpoints 0 [0, 4] [2, 0]
      (by norm_num) (by norm_num) rfl).2.2 rfl⟩

/-- C2: for every input batch, the adaptation step (`forward_and_adapt`, via
`loss_calculation`) returns `softmax(T1_logits + T2_logits)` on the clean
batch, and the student model's logits do not contribute to the returned
prediction: replacing the student model by any other model leaves the
returned prediction unchanged. -/
theorem forward_and_adapt_returns_teacher_ensemble_softmax {α : Type}
    (C : Externals α) (stepBn stepT2 : OursState α → α → List ℚ)
    (st : OursState α) (x : α) :
    (forward_and_adapt C stepBn stepT2 st x).1 =
      softmax_batch C.ex
        (addBatch (st.model_t1.forward x) (st.model_t2.forward x)) ∧
    (loss_calculation C st x).1.1 =
      softmax_batch C.ex
        (addBatch (st.model_t1.forward x) (st.model_t2.forward x)) ∧
    (∀ s' : ModelHandle α,
      (forward_and_adapt C stepBn stepT2 { st with model_s := s' } x).1 =
        (forward_and_adapt C stepBn stepT2 st x).1) :=
  ⟨rfl, rfl, fun _ => rfl⟩

/-- C10: on every call to `loss_calculation`, the field `lambda_ce_trg` is
overwritten to 1 before the student loss is scaled, the student's
self-training loss is weighted by exactly 1, and the configured value of the
field has no effect: the whole result is invariant under changing the incoming
`lambda_ce_trg` value. -/
theorem lambda_ce_trg_overwritten_to_one {α : Type} (C : Externals α)
    (st : OursState α) (x : α) :
    ((loss_calculation C st x).2).lambda_ce_trg = 1 ∧
    (loss_calculation C st x).1.2.1 =
      1 * meanQ (vadd
        (vadd (vscale (1/2)
                (sceBatch C (st.model_s.forward x) (st.model_t1.forward x)))
              (vscale (1/2)
                (sceBatch C (st.model_s.forward (C.ttaTransform x))
                  (st.model_t1.forward x))))
        (vscale (1/2)
          (sceBatch C (st.model_s.forward x) (st.model_t2.forward x)))) ∧
    (∀ lam : ℚ,
      loss_calculation C { st with lambda_ce_trg := lam } x =
        loss_calculation C st x) :=
  ⟨rfl, rfl, fun _ => rfl⟩

theorem forward_and_adapt_t1_step {α : Type} (C : Externals α)
    (stepBn stepT2 : OursState α → α → List ℚ) (st : OursState α) (x : α) :
    (forward_and_adapt C stepBn stepT2 st x).2.model_t1.params =
      update_ema_variables st.m_teacher_momentum st.model_t1.params
        ((forward_and_adapt C stepBn stepT2 st x).2.model_s.params) ∧
    (forward_and_adapt C stepBn stepT2 st x).2.m_teacher_momentum =
      st.m_teacher_momentum :=
  ⟨rfl, rfl⟩

/-- C5: teacher T1's parameters change only through the EMA merge step.
The theorem quantifies over arbitrary optimizer-step semantics `stepBn` and
`stepT2` (each of which writes only the parameters of the model its optimizer
owns — respectively `model_s` and `model_t2`), so whatever gradients the two
optimizers apply, after any run of adaptation steps T1's parameters are
exactly the momentum-weighted running average (the iterated
`update_ema_variables` fold) of T1's initial parameters with the student's
historical post-step parameters; no optimizer ever writes T1's parameters. -/
theorem t1_params_ema_running_average {α : Type} (C : Externals α)
    (stepBn stepT2 : OursState α → α → List ℚ) (st : OursState α)
    (xs : List α) :
    (adaptRun C stepBn stepT2 st xs).model_t1.params =
      List.foldl
        (fun t1p sp => update_ema_variables st.m_teacher_momentum t1p sp)
        st.model_t1.params (studentHistory C stepBn stepT2 st xs) ∧
    (adaptRun C stepBn stepT2 st xs).m_teacher_momentum =
      st.m_teacher_momentum := by
  induction xs generalizing st with
  | nil => exact ⟨rfl, rfl⟩
  | cons x xs ih =>
      obtain ⟨ih1, ih2⟩ := ih (forward_and_adapt C stepBn stepT2 st x).2
      exact ⟨ih1, ih2⟩

/-- C8 counterexample: `forward_sliding_window` computes its prediction from
`self.model` (line 293 of ours.py), not from the gradient-adapted student
`self.model_s`; on a state where the two have diverged the returned logits are
not the student's logits plus T1's logits. -/
theorem forward_sliding_window_not_student_ctex :
    (forward_sliding_window cexState ()).1 ≠
      addBatch (cexState.model_s.forward ()) (cexState.model_t1.forward ()) :=
  by decide

/-- C8 (amended): for every buffered input batch, `forward_sliding_window`
returns `model(batch) + T1(batch)` — the sum of the base model's and teacher
T1's logits, where `self.model` coincides with the student only at
construction — and performs no update: the engine state is returned unchanged,
and the returned prediction is independent of the student model, teacher T2,
the prototype queues and the step counter. -/
theorem forward_sliding_window_base_model_no_update {α : Type}
    (st : OursState α) (x : α) :
    (forward_sliding_window st x).1 =
      addBatch (st.model.forward x) (st.model_t1.forward x) ∧
    (forward_sliding_window st x).2 = st ∧
    (∀ (s' t2' : ModelHandle α) (pq' : PQStore) (c' : ℕ),
      (forward_sliding_window
        { st with model_s := s', model_t2 := t2',
                  priority_queues := pq', c := c' } x).1 =
        (forward_sliding_window st x).1) :=
  ⟨rfl, rfl, fun _ _ _ _ => rfl⟩

/-- C6 counterexample: in the adaptation step's effect sequence (ours.py lines
259-282), `optimizer_classifier_t2` never steps — refuting the claim that
T2's separate backbone and classifier optimizer instances both step. -/
theorem classifier_t2_optimizer_never_steps :
    AdaptEvent.step_optimizer_classifier_t2 ∉ forward_and_adapt_trace := by
  decide

/-- C6 (amended): in every adaptation step the student's loss is
backpropagated and the student's optimizer (`optimizer_bn`) steps, its
gradient buffers are zeroed between the student's step and teacher T2's
backward pass, and then T2's loss is backpropagated and only T2's backbone
optimizer (`optimizer_backbone_t2`) steps; T2's classifier optimizer
(`optimizer_classifier_t2`), although constructed, never steps. -/
theorem forward_and_adapt_optimizer_sequence :
    AdaptEvent.backward_loss_stu ∈ forward_and_adapt_trace ∧
    AdaptEvent.step_optimizer_bn ∈ forward_and_adapt_trace ∧
    AdaptEvent.zero_grad_optimizer_bn ∈ forward_and_adapt_trace ∧
    AdaptEvent.backward_loss_t2 ∈ forward_and_adapt_trace ∧
    AdaptEvent.step_optimizer_backbone_t2 ∈ forward_and_adapt_trace ∧
    forward_and_adapt_trace.indexOf AdaptEvent.backward_loss_stu <
      forward_and_adapt_trace.indexOf AdaptEvent.step_optimizer_bn ∧
    forward_and_adapt_trace.indexOf AdaptEvent.step_optimizer_bn <
      forward_and_adapt_trace.indexOf AdaptEvent.zero_grad_optimizer_bn ∧
    forward_and_adapt_trace.indexOf AdaptEvent.zero_grad_optimizer_bn <
      forward_and_adapt_trace.indexOf AdaptEvent.backward_loss_t2 ∧
    forward_and_adapt_trace.indexOf AdaptEvent.backward_loss_t2 <
      forward_and_adapt_trace.indexOf AdaptEvent.step_optimizer_backbone_t2 ∧
    AdaptEvent.step_optimizer_classifier_t2 ∉ forward_and_adapt_trace := by
  decide

/-- C7 counterexample: with T1 entropies `[0.1]*4 ++ [0.9]*4`, T2 entropies
`[0.2]*8` and threshold `0.4`, the only-T2-confident index set of the
confidence filter is `[4, 5, 6, 7]` (T2 is confident everywhere, T1 only on
the first four samples), not the empty set the claim asserts. -/
theorem only_t2_confident_nonempty_ctex :
    (confidence_condition scenario_entropy_t1 scenario_entropy_t2
      (2/5)).2.1 ≠ ([] : List ℕ) := by decide

/-- C7 (amended): for the batch of 8 samples with threshold 0.4, T1 entropies
`[0.1, 0.1, 0.1, 0.1, 0.9, 0.9, 0.9, 0.9]` and T2 entropies `[0.2]*8`, the
confidence filter's both-confident index set equals the first four indices and
its only-T2-confident index set equals the last four indices `[4, 5, 6, 7]`
(and is therefore nonempty). -/
theorem confidence_filter_scenario_amended :
    (confidence_condition scenario_entropy_t1 scenario_entropy_t2 (2/5)).1 =
      [0, 1, 2, 3] ∧
    (confidence_condition scenario_entropy_t1 scenario_entropy_t2
      (2/5)).2.1 = [4, 5, 6, 7] := by decide


theorem maxEntropyFrom_base_le : ∀ (l : List PQEntry) (b : ℚ),
    b ≤ maxEntropyFrom b l := by
  intro l
  induction l with
  | nil => intro b; exact le_refl b
  | cons a l ih =>
      intro b
      have h1 : b ≤ max b a.entropy := le_max_left _ _
      have h2 : max b a.entropy ≤ maxEntropyFrom (max b a.entropy) l := ih _
      exact le_trans h1 h2

theorem maxEntropyFrom_mem_le : ∀ (l : List PQEntry) (b : ℚ) (a : PQEntry),
    a ∈ l → a.entropy ≤ maxEntropyFrom b l := by
  intro l
  induction l with
  | nil => intro b a ha; simp at ha
  | cons c l ih =>
      intro b a ha
      rcases List.mem_cons.mp ha with rfl | ha'
      · have h1 : a.entropy ≤ max b a.entropy := le_max_right _ _
        have h2 : max b a.entropy ≤ maxEntropyFrom (max b a.entropy) l :=
          maxEntropyFrom_base_le l _
        exact le_trans h1 h2
      · exact ih (max b c.entropy) a ha'

theorem maxEntropyFrom_attained : ∀ (l : List PQEntry) (b : ℚ),
    maxEntropyFrom b l = b ∨ ∃ a ∈ l, maxEntropyFrom b l = a.entropy := by
  intro l
  induction l with
  | nil => intro b; left; rfl
  | cons c l ih =>
      intro b
      have hdef : maxEntropyFrom b (c :: l) = maxEntropyFrom (max b c.entropy) l :=
        rfl
      rcases ih (max b c.entropy) with h | ⟨a, hal, ha⟩
      · rcases max_choice b c.entropy with hm | hm
        · left; rw [hdef, h, hm]
        · right
          exact ⟨c, List.mem_cons_self _ _, by rw [hdef, h, hm]⟩
      · right; exact ⟨a, List.mem_cons_of_mem _ hal, by rw [hdef, ha]⟩

theorem evictSplit_exists_p (e : PQEntry) (rest : List PQEntry) :
    ∃ x ∈ e :: rest, maxEntropyFrom e.entropy rest ≤ x.entropy := by
  rcases maxEntropyFrom_attained rest e.entropy with h | ⟨a, hal, ha⟩
  · exact ⟨e, List.mem_cons_self _ _, le_of_eq h⟩
  · exact ⟨a, List.mem_cons_of_mem _ hal, le_of_eq ha⟩

theorem evictSplit_snd_length (q : List PQEntry) (hq : q ≠ []) :
    ((evictSplit q).2).length + 1 = q.length := by
  cases q with
  | nil => exact absurd rfl hq
  | cons e rest =>
      obtain ⟨x, hx, hwx⟩ := evictSplit_exists_p e rest
      have hp : (fun a => decide (maxEntropyFrom e.entropy rest ≤ a.entropy)) x
          = true := decide_eq_true hwx
      have h := List.length_eraseP_add_one
        (p := fun a => decide (maxEntropyFrom e.entropy rest ≤ a.entropy)) hx hp
      simpa [evictSplit] using h

theorem evictSplit_snd_length_le (q : List PQEntry) :
    ((evictSplit q).2).length ≤ q.length := by
  cases q with
  | nil => simp [evictSplit]
  | cons e rest =>
      have h := (List.eraseP_sublist
        (p := fun a => decide (maxEntropyFrom e.entropy rest ≤ a.entropy))
        (e :: rest)).length_le
      simpa [evictSplit] using h

/-- C4: whenever an entry is evicted from a class queue — by capacity overflow
during `update_pqs` or by the periodic eviction round `pop_min_from_pqs`
(both of which evict through `evictSplit`) — the removed entry is one with the
numerically highest entropy (worst confidence) in that queue, and after the
eviction no remaining entry in that queue has higher entropy (lower
confidence) than the evicted one. -/
theorem evict_removes_highest_entropy (q : List PQEntry) (hq : q ≠ []) :
    ∃ ev, (evictSplit q).1 = some ev ∧ ev ∈ q ∧
      (∀ a ∈ q, a.entropy ≤ ev.entropy) ∧
      (∀ a ∈ (evictSplit q).2, a.entropy ≤ ev.entropy) := by
  cases q with
  | nil => exact absurd rfl hq
  | cons e rest =>
      have h1 : (evictSplit (e :: rest)).1 =
        (e :: rest).find?
          (fun a => decide (maxEntropyFrom e.entropy rest ≤ a.entropy)) := rfl
      have h2 : (evictSplit (e :: rest)).2 =
        (e :: rest).eraseP
          (fun a => decide (maxEntropyFrom e.entropy rest ≤ a.entropy)) := rfl
      obtain ⟨x, hx, hwx⟩ := evictSplit_exists_p e rest
      have hsome : ((e :: rest).find?
          (fun a => decide (maxEntropyFrom e.entropy rest ≤ a.entropy))).isSome :=
        List.find?_isSome.mpr ⟨x, hx, decide_eq_true hwx⟩
      obtain ⟨ev, hev⟩ := Option.isSome_iff_exists.mp hsome
      have hpev := List.find?_some hev
      have hevq : ev ∈ e :: rest := List.mem_of_find?_eq_some hev
      have hwle : maxEntropyFrom e.entropy rest ≤ ev.entropy :=
        of_decide_eq_true hpev
      have hmax : ∀ a ∈ e :: rest, a.entropy ≤ maxEntropyFrom e.entropy rest := by
        intro a ha
        rcases List.mem_cons.mp ha with rfl | ha'
        · exact maxEntropyFrom_base_le rest a.entropy
        · exact maxEntropyFrom_mem_le rest e.entropy a ha'
      refine ⟨ev, by rw [h1, hev], hevq, ?_, ?_⟩
      · intro a ha; exact le_trans (hmax a ha) hwle
      · intro a ha
        rw [h2] at ha
        have hmem : a ∈ e :: rest := (List.eraseP_sublist _).subset ha
        exact le_trans (hmax a hmem) hwle

theorem evict_removes_highest_entropy_witness :
    (sampleQueue ≠ []) ∧
    (∃ ev, (evictSplit sampleQueue).1 = some ev ∧ ev ∈ sampleQueue ∧
      (∀ a ∈ sampleQueue, a.entropy ≤ ev.entropy) ∧
      (∀ a ∈ (evictSplit sampleQueue).2, a.entropy ≤ ev.entropy)) :=
  ⟨by decide, evict_removes_highest_entropy sampleQueue (by decide)⟩

theorem getD_queue_cases (pqs : PQStore) (lab : ℕ) :
    pqs.queues.getD lab [] = [] ∨ pqs.queues.getD lab [] ∈ pqs.queues := by
  rcases Nat.lt_or_ge lab pqs.queues.length with hl | hl
  · right
    have h : pqs.queues.getD lab [] = pqs.queues[lab] := by
      simp [List.getD_eq_getElem?_getD, List.getElem?_eq_getElem hl]
    rw [h]
    exact List.getElem_mem hl
  · left
    exact List.getD_eq_default _ _ hl

theorem pushEntry_bounded (pqs : PQStore) (f : List ℚ) (ent : ℚ) (lab : ℕ)
    (h : ∀ q ∈ pqs.queues, q.length ≤ pqs.max_size) :
    ∀ q ∈ (pushEntry pqs f ent lab).queues, q.length ≤ pqs.max_size := by
  intro q hq
  simp only [pushEntry] at hq
  rcases List.mem_or_eq_of_mem_set hq with hmem | rfl
  · exact h q hmem
  · have hq0 : (pqs.queues.getD lab []).length ≤ pqs.max_size := by
      rcases getD_queue_cases pqs lab with h0 | h0
      · rw [h0]; exact Nat.zero_le _
      · exact h _ h0
    have hq1 : ((pqs.queues.getD lab []) ++ [(⟨f, ent⟩ : PQEntry)]).length =
        (pqs.queues.getD lab []).length + 1 := by simp
    by_cases hc : pqs.max_size <
        ((pqs.queues.getD lab []) ++ [(⟨f, ent⟩ : PQEntry)]).length
    · rw [if_pos hc]
      have hne : (pqs.queues.getD lab []) ++ [(⟨f, ent⟩ : PQEntry)] ≠ [] := by
        simp
      have hlen := evictSplit_snd_length _ hne
      omega
    · rw [if_neg hc]
      omega

theorem foldl_pushEntry_bounded (l : List (List ℚ × ℚ × ℕ)) :
    ∀ (pqs : PQStore), (∀ q ∈ pqs.queues, q.length ≤ pqs.max_size) →
      (∀ q ∈ (l.foldl (fun acc t => pushEntry acc t.1 t.2.1 t.2.2) pqs).queues,
        q.length ≤ pqs.max_size) ∧
      (l.foldl (fun acc t => pushEntry acc t.1 t.2.1 t.2.2) pqs).max_size =
        pqs.max_size := by
  induction l with
  | nil => intro pqs h; exact ⟨h, rfl⟩
  | cons t l ih =>
      intro pqs h
      have h1 := pushEntry_bounded pqs t.1 t.2.1 t.2.2 h
      exact ih (pushEntry pqs t.1 t.2.1 t.2.2) h1

theorem applyPQOp_bounded (op : PQOp) (pqs : PQStore)
    (h : ∀ q ∈ pqs.queues, q.length ≤ pqs.max_size) :
    (∀ q ∈ (applyPQOp pqs op).queues, q.length ≤ pqs.max_size) ∧
    (applyPQOp pqs op).max_size = pqs.max_size := by
  cases op with
  | update f e l => exact foldl_pushEntry_bounded _ pqs h
  | evictRound n =>
      refine ⟨?_, rfl⟩
      intro q hq
      obtain ⟨q0, hq0, rfl⟩ := List.mem_map.mp hq
      exact le_trans (evictSplit_snd_length_le q0) (h q0 hq0)

theorem runPQOps_bounded (ops : List PQOp) :
    ∀ (pqs : PQStore), (∀ q ∈ pqs.queues, q.length ≤ pqs.max_size) →
      (∀ q ∈ (runPQOps ops pqs).queues, q.length ≤ pqs.max_size) ∧
      (runPQOps ops pqs).max_size = pqs.max_size := by
  induction ops with
  | nil => intro pqs h; exact ⟨h, rfl⟩
  | cons op ops ih =>
      intro pqs h
      obtain ⟨h1, h2⟩ := applyPQOp_bounded op pqs h
      have h1' : ∀ q ∈ (applyPQOp pqs op).queues,
          q.length ≤ (applyPQOp pqs op).max_size := by
        intro q hq; rw [h2]; exact h1 q hq
      obtain ⟨ha, hb⟩ := ih (applyPQOp pqs op) h1'
      constructor
      · intro q hq
        have hle : q.length ≤ (applyPQOp pqs op).max_size := ha q hq
        rw [h2] at hle
        exact hle
      · show (runPQOps ops (applyPQOp pqs op)).max_size = pqs.max_size
        rw [hb, h2]

/-- C3: after any sequence of prototype-store update and eviction-round calls
starting from construction, every class queue holds at most `max_size`
entries, where `max_size` is the capacity fixed at construction by
`init_pqs(num_classes, max_size)` — instantiated as `max_size = 10` in
`Ours.__init__`. -/
theorem priority_queues_bounded_by_capacity (num_classes max_size : ℕ)
    (ops : List PQOp) :
    ∀ q ∈ (runPQOps ops (init_pqs num_classes max_size)).queues,
      q.length ≤ max_size := by
  have hinit : ∀ q ∈ (init_pqs num_classes max_size).queues,
      q.length ≤ (init_pqs num_classes max_size).max_size := by
    intro q hq
    have hq' : q = [] := List.eq_of_mem_replicate hq
    rw [hq']
    exact Nat.zero_le _
  exact (runPQOps_bounded ops (init_pqs num_classes max_size) hinit).1

theorem priority_queues_bounded_by_capacity_witness :
    sampleQueue3 ∈ (runPQOps sampleOps (init_pqs 2 10)).queues ∧
    sampleQueue3.length ≤ 10 :=
  ⟨by decide,
   priority_queues_bounded_by_capacity 2 10 sampleOps sampleQueue3
     (by decide)⟩

/-- C9: `contrastive_loss` fails exactly when (i) both `labels` and `mask` are
supplied, (ii) `labels` is supplied with a length different from the feature
batch size, or (iii) the configured contrast mode is neither `one` nor `all`;
such inputs are never silently coerced (every other input yields `ok`), and
the error value propagates to the caller of the pure function, which touches
no model or prototype state. -/
theorem contrastive_loss_error_iff (kernel : List (List ℚ) → ℕ → ℚ)
    (features : List (List ℚ)) (labels : Option (List ℤ))
    (maskArg : Option (List (List ℚ))) (contrast_mode : String) :
    (∃ msg, contrastive_loss kernel features labels maskArg contrast_mode =
      Except.error msg) ↔
      ((labels.isSome ∧ maskArg.isSome) ∨
       (∃ l, labels = some l ∧ l.length ≠ features.length) ∨
       (contrast_mode ≠ "one" ∧ contrast_mode ≠ "all")) := by
  rcases labels with _ | l <;> rcases maskArg with _ | m
  · simp only [contrastive_loss, contrastive_mode_branch]
    by_cases h1 : contrast_mode = "one"
    · simp [h1]
    · by_cases h2 : contrast_mode = "all"
      · simp [h1, h2]
      · simp [h1, h2]
  · simp only [contrastive_loss, contrastive_mode_branch]
    by_cases h1 : contrast_mode = "one"
    · simp [h1]
    · by_cases h2 : contrast_mode = "all"
      · simp [h1, h2]
      · simp [h1, h2]
  · simp only [contrastive_loss, contrastive_mode_branch]
    by_cases hl : l.length = features.length
    · by_cases h1 : contrast_mode = "one"
      · simp [hl, h1]
      · by_cases h2 : contrast_mode = "all"
        · simp [hl, h1, h2]
        · simp [hl, h1, h2]
    · simp [hl]
  · exact iff_of_true ⟨"Cannot define both labels and mask", rfl⟩
      (Or.inl ⟨rfl, rfl⟩)

end RatReduction
